import Mathlib

/-!
Verification of the tinycss2 CSS engine sources against its
natural-language specification.

The Python sources are shallowly embedded: Python strings become
`List Char`, byte strings become `List Nat`, numbers become `Int`/`Rat`,
and fallible code returns `Except PyErr`.  Runtime exceptions that the
sources can raise (NameError for an undefined variable, TypeError for a
call with the wrong arity or mismatched bytes/str arguments, ValueError
from `int()`, IndexError from an out-of-range string index, AttributeError
from calling `.start()` on a failed regexp search) are modelled
as `PyErr` values.
-/

namespace Tinycss2

/-- Python runtime exceptions raised by the embedded code, plus a fuel
marker (`outOfFuel`) for the loop embedding; the tokenizer's position
strictly increases each iteration so the supplied fuel is never
exhausted in practice. -/
inductive PyErr where
  | nameError
  | typeError
  | valueError
  | indexError
  | attributeError
  | outOfFuel
  deriving DecidableEq, Repr

/-- Indexing `css[pos]` on a Python string: IndexError when out of range. -/
def pyCharAt (css : List Char) (pos : Nat) : Except PyErr Char :=
  match css.get? pos with
  | some c => .ok c
  | none => .error .indexError

/-- Fold A-Z to a-z, leaving every other character unchanged.  Embeds
`ascii_lower` from `tinycss2/__init__.py`: encoding to UTF-8, calling
`bytes.lower()` (which only maps the ASCII range) and decoding back. -/
def ascii_lower (s : List Char) : List Char :=
  s.map fun c => if 'A' ≤ c ∧ c ≤ 'Z' then Char.ofNat (c.toNat + 32) else c

/-- Embeds `ascii_lower` from `tinycss2/utils.py`.  That function's body
evaluates `string.encode('utf8').lower().decode('utf8')` but has no
`return` statement, so the Python function returns `None`. -/
def utils_ascii_lower (_s : List Char) : Option (List Char) :=
  none

/-- Numeric value of a token: Python `int` or `float`.  Floats are
represented exactly as rationals; every numeric literal the tokenizer
feeds to `float()` is a finite decimal, and no claim depends on binary
rounding. -/
inductive PyNum where
  | int (n : Int)
  | float (q : Rat)
  deriving DecidableEq, Repr

def isAsciiDigit (c : Char) : Bool := '0' ≤ c ∧ c ≤ '9'

def isAsciiAlpha (c : Char) : Bool :=
  ('a' ≤ c ∧ c ≤ 'z') ∨ ('A' ≤ c ∧ c ≤ 'Z')

def isHexDigit (c : Char) : Bool :=
  isAsciiDigit c ∨ ('a' ≤ c ∧ c ≤ 'f') ∨ ('A' ≤ c ∧ c ≤ 'F')

def digitVal (c : Char) : Nat := c.toNat - '0'.toNat

def hexVal (c : Char) : Nat :=
  if isAsciiDigit c then c.toNat - '0'.toNat
  else if 'a' ≤ c ∧ c ≤ 'f' then c.toNat - 'a'.toNat + 10
  else c.toNat - 'A'.toNat + 10

def digitsToNat : List Char → Nat → Nat
  | [], acc => acc
  | c :: cs, acc => digitsToNat cs (acc * 10 + digitVal c)

def hexToNat : List Char → Nat → Nat
  | [], acc => acc
  | c :: cs, acc => hexToNat cs (acc * 16 + hexVal c)

/-- Python `int(s)`: optional surrounding whitespace, an optional sign
and a non-empty digit run; anything else raises ValueError.  In
particular `int('1e3')` raises. -/
def pyInt (s : List Char) : Except PyErr Int :=
  let s := (s.dropWhile fun c => c = ' ' ∨ c = '\t' ∨ c = '\n').reverse
  let s := (s.dropWhile fun c => c = ' ' ∨ c = '\t' ∨ c = '\n').reverse
  let (sign, digits) :=
    match s with
    | '+' :: rest => (1, rest)
    | '-' :: rest => (-1, rest)
    | rest => ((1 : Int), rest)
  if digits ≠ [] ∧ digits.all isAsciiDigit then
    .ok (sign * (digitsToNat digits 0 : Int))
  else
    .error .valueError

/-- Python `int(s, 16)` restricted to the unsigned hex runs produced by
the unicode-range consumer: ValueError on the empty string. -/
def pyIntHex (s : List Char) : Except PyErr Nat :=
  if s ≠ [] ∧ s.all isHexDigit then .ok (hexToNat s 0) else .error .valueError

/-- Python `float(s)` on the numeric literals the tokenizer produces:
`[+-]? (digits [. digits*]? | . digits) ([eE][+-]?digits)?`, valued
exactly as a rational.  Other shapes raise ValueError. -/
def pyFloat (s : List Char) : Except PyErr Rat :=
  let (sign, rest) :=
    match s with
    | '+' :: rest => ((1 : Rat), rest)
    | '-' :: rest => (-1, rest)
    | rest => (1, rest)
  let intPart := rest.takeWhile isAsciiDigit
  let rest := rest.dropWhile isAsciiDigit
  let (fracPart, rest) :=
    match rest with
    | '.' :: rest => (rest.takeWhile isAsciiDigit, rest.dropWhile isAsciiDigit)
    | rest => ([], rest)
  let mantissa : Rat :=
    (digitsToNat intPart 0 : Rat) +
      (digitsToNat fracPart 0 : Rat) / ((10 : Rat) ^ fracPart.length)
  let expRes : Except PyErr Int :=
    match rest with
    | [] => .ok 0
    | 'e' :: rest => pyInt rest
    | 'E' :: rest => pyInt rest
    | _ => .error .valueError
  if intPart = [] ∧ fracPart = [] then .error .valueError
  else
    match expRes with
    | .error e => .error e
    | .ok exp =>
      .ok (sign * mantissa * (10 : Rat) ^ exp)

/-- The token data model of `tinycss2/tokens.py`.  Each constructor
carries the `source_line` and `source_column` stored by `_Token`;
`IdentToken`, `AtKeywordToken`, `DimensionToken` and `Function` store
the ASCII-lowered value together with the case-preserving original. -/
inductive Tok where
  | whitespace (line col : Int)
  | literal (line col : Int) (value : List Char)
  | ident (line col : Int) (value caseValue : List Char)
  | atKeyword (line col : Int) (value caseValue : List Char)
  | hash (line col : Int) (value : List Char)
  | str (line col : Int) (value : List Char)
  | url (line col : Int) (value : List Char)
  | unicodeRange (line col : Int) (range : Option (Nat × Nat))
  | number (line col : Int) (value : PyNum) (rep : List Char) (isInteger : Bool)
  | dimension (line col : Int) (value : PyNum) (rep : List Char)
      (isInteger : Bool) (unit caseUnit : List Char)
  | badString (line col : Int)
  | badUrl (line col : Int)
  | parenBlock (line col : Int) (content : List Tok)
  | squareBlock (line col : Int) (content : List Tok)
  | curlyBlock (line col : Int) (content : List Tok)
  | function (line col : Int) (name caseName : List Char) (arguments : List Tok)
  deriving Repr

/-- The slice `css[a:b]`. -/
def pySlice (css : List Char) (a b : Nat) : List Char :=
  (css.drop a).take (b - a)

/-- Structural scan: index of the first character of `l` (whose first
element sits at index `pos` of the whole string) failing `p`, or the
index one past the end of `l`. -/
def searchFrom (p : Char → Bool) : List Char → Nat → Nat
  | [], pos => pos
  | c :: rest, pos => if p c then searchFrom p rest (pos + 1) else pos

/-- First index `i ≥ pos` whose character is not in ` \n\t`, or the
length; embeds `_NON_WHITESPACE_CHAR_RE.search(css, pos).start()`. -/
def nonWsSearch (css : List Char) (pos : Nat) : Nat :=
  searchFrom (fun c => c = ' ' ∨ c = '\n' ∨ c = '\t') (css.drop pos) pos

/-- Does `sub` occur at index `pos` (Python `css.startswith(sub, pos)`)? -/
def startswithAt (css sub : List Char) (pos : Nat) : Bool :=
  sub.isPrefixOf (css.drop pos)

def findSubAux (sub : List Char) : List Char → Nat → Option Nat
  | [], _ => none
  | l@(_ :: rest), pos =>
    if sub.isPrefixOf l then some pos else findSubAux sub rest (pos + 1)

/-- First index `i ≥ pos` where the non-empty `sub` occurs, or `none`
(Python `css.find(sub, pos)` returning -1). -/
def findSub (css sub : List Char) (pos : Nat) : Option Nat :=
  findSubAux sub (css.drop pos) pos

def rfindNewlineAux : List Char → Nat → Option Nat → Option Nat
  | [], _, best => best
  | c :: rest, i, best =>
    rfindNewlineAux rest (i + 1) (if c = '\n' then some i else best)

/-- Last index `i` with `start ≤ i < stop` holding a newline, or `none`
(Python `css.rfind('\n', start, stop)` returning -1). -/
def rfindNewline (css : List Char) (start stop : Nat) : Option Nat :=
  rfindNewlineAux (pySlice css start stop) start none

/-- Number of newlines at indices in `[start, stop)`
(Python `css.count('\n', start, stop)`). -/
def countNewlines (css : List Char) (start stop : Nat) : Nat :=
  ((pySlice css start stop).filter (· = '\n')).length

/-- Embeds `_is_ident_start` (tokenizer.py lines 181-194).  Reading
`css[pos]` out of range raises IndexError, exactly as in Python: the
source omits a bound check before calling this after a trailing
number. -/
def is_ident_start (css : List Char) (pos : Nat) : Except PyErr Bool := do
  let c ← pyCharAt css pos
  let length := css.length
  let (pos, c) ←
    if c = '-' ∧ pos + 1 < length then do
      pure (pos + 1, (← pyCharAt css (pos + 1)))
    else
      pure (pos, c)
  if isAsciiAlpha c ∨ c = '_' then
    pure true
  else if c.toNat > 0xFF then
    pure true
  else if c = '\\' ∧ pos + 1 < length then
    pure ((← pyCharAt css (pos + 1)) ≠ '\n')
  else
    pure false

/-- Membership in the character class of `_NON_NAME_CHAR_RE`
(tokenizer.py lines 20-21): all ASCII characters other than
`[a-zA-Z0-9_-]`.  Characters at or above code point 128 are not in the
class. -/
def nonNameChar (c : Char) : Bool :=
  c.toNat < 128 ∧
    ¬(isAsciiAlpha c ∨ isAsciiDigit c ∨ c = '_' ∨ c = '-')

/-- Index of the first character at or after `pos` in the
`_NON_NAME_CHAR_RE` class, or `none`; embeds
`_NON_NAME_CHAR_RE.search(css, pos)`.  The pattern has no `|$`
alternative, so the search really can fail. -/
def nonNameSearch (css : List Char) (pos : Nat) : Option Nat :=
  let idx := searchFrom (fun c => ¬ nonNameChar c) (css.drop pos) pos
  if idx < css.length then some idx else none

/-- Embeds `_consume_ident` (tokenizer.py lines 197-216).  The function
initialises `chunks = []` but the loop body appends through the
undefined name `chuncks`; the loop runs whenever `pos < len(css)`.  In
the first iteration, `_NON_NAME_CHAR_RE.search(css, pos)` (whose
pattern has no `|$` branch) either fails — only name characters remain,
so `None.start()` raises AttributeError — or finds a match, after which
`chuncks.append` raises NameError. -/
def consume_ident (css : List Char) (pos : Nat) :
    Except PyErr (List Char × Nat) :=
  if pos < css.length then
    match nonNameSearch css pos with
    | some _ => .error .nameError
    | none => .error .attributeError
  else .ok ([], pos)

/-- Embeds `_consume_quoted_string` (tokenizer.py lines 219-251).  After
skipping the opening quote, the loop body first runs the
`_NON_STRING_CHAR_RE` search — whose `|$` alternative means it always
matches — and then appends through the undefined name `chuncks` (the
list is `chunks`), raising NameError whenever any character follows the
quote; with the quote as the last character the loop never runs and
`('', pos)` is returned. -/
def consume_quoted_string (css : List Char) (pos : Nat) :
    Except PyErr (Option (List Char) × Nat) :=
  if pos + 1 < css.length then .error .nameError else .ok (some [], pos + 1)

/-- Embeds `_consume_escape` (tokenizer.py lines 254-267).  When the hex
regexp matches, the code returns via `match.end()` but the binding is
named `hex_match`, so Python raises NameError; otherwise the character
at `pos` is returned verbatim. -/
def consume_escape (css : List Char) (pos : Nat) :
    Except PyErr (Char × Nat) := do
  let c ← pyCharAt css pos
  if isHexDigit c then .error .nameError else .ok (c, pos + 1)

/-- Embeds `_consume_url` (tokenizer.py lines 270-319).  Whitespace is
skipped; EOF yields the bad-url `(None, pos)`; a quote calls
`_consume_quoted_string()` with no arguments, a TypeError; `)` yields
the empty url; the unquoted loop's first statement appends through the
undefined `chuncks`, a NameError. -/
def consume_url (css : List Char) (pos : Nat) :
    Except PyErr (Option (List Char) × Nat) := do
  let length := css.length
  let pos := nonWsSearch css pos
  if pos ≥ length then
    .ok (none, pos)
  else do
    let c ← pyCharAt css pos
    if c = '"' ∨ c = '\'' then .error .typeError
    else if c = ')' then .ok (some [], pos + 1)
    else .error .nameError

/-- Is the character at index `i` a hex digit? -/
def hexAt (css : List Char) (i : Nat) : Bool :=
  match css.get? i with
  | some c => isHexDigit c
  | none => false

/-- Maximal run of hex digits starting at `pos`, stopping at `maxPos`. -/
def hexRunEnd (css : List Char) (pos maxPos : Nat) : Nat :=
  searchFrom isHexDigit (pySlice css pos maxPos) pos

/-- Maximal run of `?` starting at `pos`, stopping at `maxPos`. -/
def questionRunEnd (css : List Char) (pos maxPos : Nat) : Nat :=
  searchFrom (fun c => c = '?') (pySlice css pos maxPos) pos

/-- Embeds `_consume_unicode_range` (tokenizer.py lines 322-361); `pos`
is just after the `+`.  The stored range is the pair of code points
(`sys.maxunicode` = 0x10FFFF); the missing `compat.unichr` is the
standard code-point-to-character conversion, so storing the code points
is the same payload.  Note the `-hex` branch takes `start_pos = pos`
while `pos` still indexes the `-` itself, and its `while` loop demands a
hex digit at `css[pos]`, so the loop never runs and `hex_2` is the empty
slice: `int('', 16)` then raises ValueError. -/
def consume_unicode_range (css : List Char) (pos : Nat) :
    Except PyErr (Option (Nat × Nat) × Nat) := do
  let length := css.length
  let startPos := pos
  let pos := hexRunEnd css pos (min (pos + 6) length)
  let hex1 := pySlice css startPos pos
  let startPos2 := pos
  let pos := questionRunEnd css pos (min (pos + (6 - hex1.length)) length)
  let questionMarks := pos - startPos2
  let (hex1, hex2, pos) :=
    if questionMarks ≠ 0 then
      (hex1 ++ List.replicate questionMarks '0',
       hex1 ++ List.replicate questionMarks 'F', pos)
    else if pos + 1 < length ∧ css.get? pos = some '-' ∧
        hexAt css (pos + 1) then
      let startPos3 := pos
      let pos2 := hexRunEnd css pos (min (pos + 6) length)
      (hex1, pySlice css startPos3 pos2, pos2)
    else
      (hex1, hex1, pos)
  let start ← pyIntHex hex1
  let stop ← pyIntHex hex2
  if start > 0x10FFFF ∨ stop < start then
    .ok (none, pos)
  else
    .ok (some (start, min stop 0x10FFFF), pos)

/-- First index `i ≥ pos` whose character is not an ASCII digit, or the
length of `css`. -/
def digitsEnd (css : List Char) (pos : Nat) : Nat :=
  searchFrom isAsciiDigit (css.drop pos) pos

/-- Embeds `_NUMBER_RE.match(css, pos)` for the pattern
`[-+]?([0-9]*\.)?[0-9]+` with Python's backtracking: the
`([0-9]*\.)` group participates only when a digit follows the dot.
Returns `(is_integer, match_end)` where `is_integer` is
`match.group(1) is None`. -/
def numberMatch (css : List Char) (pos : Nat) : Option (Bool × Nat) :=
  let p :=
    if css.get? pos = some '+' ∨ css.get? pos = some '-' then pos + 1 else pos
  let d1 := digitsEnd css p
  if css.get? d1 = some '.' ∧ digitsEnd css (d1 + 1) > d1 + 1 then
    some (false, digitsEnd css (d1 + 1))
  else if d1 > p then some (true, d1)
  else none

/-- Embeds `_SCIENTIFIC_NOTATION_RE.match(css, pos)` for the pattern
`[eE][+-]?[0-9]+`, returning the match end. -/
def sciMatch (css : List Char) (pos : Nat) : Option Nat :=
  if css.get? pos = some 'e' ∨ css.get? pos = some 'E' then
    let q :=
      if css.get? (pos + 1) = some '+' ∨ css.get? (pos + 1) = some '-' then
        pos + 2
      else pos + 1
    let e := digitsEnd css q
    if e > q then some e else none
  else none

/-- Evaluates `(int if is_integer else float)(representation)`. -/
def pyNumValue (isInteger : Bool) (rep : List Char) : Except PyErr PyNum :=
  if isInteger then (pyInt rep).map .int else (pyFloat rep).map .float

/-- Embeds tokenizer.py lines 80-103: the handling of a successful
`_NUMBER_RE` match ending at `mEnd`.  A `%` suffix emits a
`DimensionToken` with unit `'%'`; otherwise scientific notation extends
the representation (so `int('1e3')` raises ValueError when the match had
no decimal point); otherwise an ident start begins a unit (note
`_is_ident_start` raises IndexError when the number ends the input,
since the source checks no bound first); otherwise a `NumberToken`. -/
def handle_number (css : List Char) (tokenStartPos : Nat) (line column : Int)
    (isInteger : Bool) (mEnd : Nat) : Except PyErr (Tok × Nat) := do
  let length := css.length
  if mEnd < length ∧ css.get? mEnd = some '%' then
    let rep := pySlice css tokenStartPos mEnd
    let value ← pyNumValue isInteger rep
    .ok (.dimension line column value rep isInteger (ascii_lower ['%']) ['%'],
      mEnd + 1)
  else
    match sciMatch css mEnd with
    | some sEnd =>
      let rep := pySlice css tokenStartPos sEnd
      let value ← pyNumValue isInteger rep
      .ok (.number line column value rep isInteger, sEnd)
    | none => do
      let isStart ← is_ident_start css mEnd
      if isStart then
        let rep := pySlice css tokenStartPos mEnd
        let value ← pyNumValue isInteger rep
        let (unit, pos') ← consume_ident css mEnd
        .ok (.dimension line column value rep isInteger (ascii_lower unit) unit,
          pos')
      else
        let rep := pySlice css tokenStartPos mEnd
        let value ← pyNumValue isInteger rep
        .ok (.number line column value rep isInteger, mEnd)

/-- Guard of the unicode-range branch (tokenizer.py lines 55-56):
`c in 'Uu' and pos + 2 < length and css[pos + 1] == '+' and
css[pos + 2] in '0123456789abcdefABCDEF?'`. -/
def unicodeRangeGuard (css : List Char) (c : Char) (pos : Nat) : Bool :=
  (c = 'U' ∨ c = 'u') ∧ pos + 2 < css.length ∧
    css.get? (pos + 1) = some '+' ∧
    (hexAt css (pos + 2) ∨ css.get? (pos + 2) = some '?')

/-- Guard of the hash branch (tokenizer.py lines 113-118): a name
character or a valid escape after the `#`. -/
def hashNameGuard (css : List Char) (pos : Nat) : Bool :=
  let nameChar : Bool :=
    match css.get? pos with
    | some c => isAsciiDigit c ∨ isAsciiAlpha c ∨ c = '-' ∨ c = '_'
    | none => false
  pos < css.length ∧
    (nameChar ∨
     (css.get? pos = some '\\' ∧ pos + 1 < css.length ∧
       ¬ (css.get? (pos + 1) = some '\n')))

/-- Embeds the `while pos < length` loop of `tokenize` (tokenizer.py
lines 41-177), with the source's line/column bookkeeping.  `fuel` only
bounds the recursion; `pos` strictly increases each iteration, so
`length + 1` iterations can never be exhausted.

Two pieces of dead state in the source are omitted: `end_char` is `None`
at the top level and every branch that would change it (`{`, `[`, `(`
and function opening) raises TypeError first, because
`Function(pos, value, arguments)` and `CurlyBracketsBlock(pos, content)`
(and the `[`/`(` analogues) pass one argument fewer than the
constructors `Function(line, column, name, arguments)` and
`_Block(line, column, content)` require; hence the `elif c == end_char`
branch (`None` compares unequal to every character) and the `stack` are
unreachable and do not appear here. -/
def tokenizeLoop (css : List Char) :
    Nat → Nat → Nat → Int → Int → List Tok → Except PyErr (List Tok)
  | 0, _, _, _, _, _ => .error .outOfFuel
  | fuel + 1, pos, tokenStartPos, line, lastNewline, acc =>
    let length := css.length
    if hp : pos < length then
      let (line, lastNewline) :=
        match rfindNewline css tokenStartPos pos with
        | some nl =>
          (line + 1 + (countNewlines css tokenStartPos nl : Int), (nl : Int))
        | none => (line, lastNewline)
      let column : Int := (pos : Int) - lastNewline
      let tokenStartPos := pos
      let c := css.get ⟨pos, hp⟩
      if c = ' ' ∨ c = '\n' ∨ c = '\t' then
        tokenizeLoop css fuel (nonWsSearch css (pos + 1)) tokenStartPos line
          lastNewline (.whitespace line column :: acc)
      else if unicodeRangeGuard css c pos then do
        let (value, pos) ← consume_unicode_range css (pos + 2)
        tokenizeLoop css fuel pos tokenStartPos line lastNewline
          (.unicodeRange line column value :: acc)
      else do
        let identStart ← is_ident_start css pos
        if identStart then do
          let (value, pos) ← consume_ident css pos
          if ¬ (pos < length ∧ css.get? pos = some '(') then
            tokenizeLoop css fuel pos tokenStartPos line lastNewline
              (.ident line column (ascii_lower value) value :: acc)
          else
            let pos := pos + 1
            if utils_ascii_lower value = some ['u', 'r', 'l'] then do
              let (value, pos) ← consume_url css pos
              match value with
              | some v =>
                tokenizeLoop css fuel pos tokenStartPos line lastNewline
                  (.url line column v :: acc)
              | none =>
                tokenizeLoop css fuel pos tokenStartPos line lastNewline
                  (.badUrl line column :: acc)
            else
              -- `tokens.append(Function(pos, value, arguments))` passes 3
              -- arguments to the 4-parameter constructor
              -- `Function(line, column, name, arguments)`: TypeError.
              .error .typeError
        else
          match numberMatch css pos with
          | some (isInteger, mEnd) => do
            let (tok, pos) ←
              handle_number css tokenStartPos line column isInteger mEnd
            tokenizeLoop css fuel pos tokenStartPos line lastNewline
              (tok :: acc)
          | none =>
            if c = '@' then
              if pos + 1 < length then do
                let b ← is_ident_start css (pos + 1)
                if b then do
                  let (value, pos) ← consume_ident css (pos + 1)
                  tokenizeLoop css fuel pos tokenStartPos line lastNewline
                    (.atKeyword line column (ascii_lower value) value :: acc)
                else
                  tokenizeLoop css fuel (pos + 1) tokenStartPos line lastNewline
                    (.literal line column ['@'] :: acc)
              else
                tokenizeLoop css fuel (pos + 1) tokenStartPos line lastNewline
                  (.literal line column ['@'] :: acc)
            else if c = '#' then
              if hashNameGuard css (pos + 1) then do
                let (value, pos) ← consume_ident css (pos + 1)
                tokenizeLoop css fuel pos tokenStartPos line lastNewline
                  (.hash line column value :: acc)
              else
                tokenizeLoop css fuel (pos + 1) tokenStartPos line lastNewline
                  (.literal line column ['#'] :: acc)
            else if c = '{' ∨ c = '[' ∨ c = '(' then
              -- `CurlyBracketsBlock(pos, content)` (and the `[`/`(`
              -- analogues) pass 2 arguments to the 3-parameter
              -- constructor `_Block(line, column, content)`: TypeError.
              .error .typeError
            else if c = '"' ∨ c = '\'' then do
              let (value, pos) ← consume_quoted_string css pos
              match value with
              | some v =>
                tokenizeLoop css fuel pos tokenStartPos line lastNewline
                  (.str line column v :: acc)
              | none =>
                tokenizeLoop css fuel pos tokenStartPos line lastNewline
                  (.badString line column :: acc)
            else if startswithAt css ['/', '*'] pos then
              -- Comments are skipped: nothing is appended.  An
              -- unterminated comment (`find` returns -1) executes
              -- `break`, ending tokenization at once.
              match findSub css ['*', '/'] (pos + 2) with
              | none => .ok acc.reverse
              | some i =>
                tokenizeLoop css fuel (i + 2) tokenStartPos line lastNewline acc
            else if startswithAt css ['<', '!', '-', '-'] pos then
              tokenizeLoop css fuel (pos + 4) tokenStartPos line lastNewline
                (.literal line column ['<', '!', '-', '-'] :: acc)
            else if startswithAt css ['-', '-', '>'] pos then
              tokenizeLoop css fuel (pos + 3) tokenStartPos line lastNewline
                (.literal line column ['-', '-', '>'] :: acc)
            else if startswithAt css ['|', '|'] pos then
              tokenizeLoop css fuel (pos + 2) tokenStartPos line lastNewline
                (.literal line column ['|', '|'] :: acc)
            else if c = '~' ∨ c = '|' ∨ c = '^' ∨ c = '$' ∨ c = '*' then
              if pos + 1 < length ∧ css.get? (pos + 1) = some '=' then
                tokenizeLoop css fuel (pos + 2) tokenStartPos line lastNewline
                  (.literal line column [c, '='] :: acc)
              else
                tokenizeLoop css fuel (pos + 1) tokenStartPos line lastNewline
                  (.literal line column [c] :: acc)
            else
              tokenizeLoop css fuel (pos + 1) tokenStartPos line lastNewline
                (.literal line column [c] :: acc)
    else .ok acc.reverse

/-- The preprocessing substitutions of tokenizer.py lines 31-32:
U+0000 to U+FFFD, then `\r\n` to `\n`, then `\r` to `\n`, then `\f` to
`\n`, applied in that order. -/
def replaceCrLf : List Char → List Char
  | '\r' :: '\n' :: rest => '\n' :: replaceCrLf rest
  | c :: rest => c :: replaceCrLf rest
  | [] => []

def preprocess (s : List Char) : List Char :=
  let s := s.map fun c => if c = Char.ofNat 0 then '�' else c
  let s := replaceCrLf s
  let s := s.map fun c => if c = '\r' then '\n' else c
  s.map fun c => if c = Char.ofNat 0x0C then '\n' else c

/-- Embeds `tokenize` (tokenizer.py lines 24-178). -/
def tokenize (s : String) : Except PyErr (List Tok) :=
  let css := preprocess s.data
  tokenizeLoop css (css.length + 1) 0 0 1 (-1) []

/-!
## Structural parser (`tinycss2/parser.py`)

`parser.py` consumes component values with the data model of
`tinycss2/ast.py`: every node has a `type` string, `LiteralToken`
compares equal to its string value, idents carry `value`/`lower_value`,
and `{}` blocks carry their `content`.  `PTok` embeds that model.
-/

/-- Component values as defined in `tinycss2/ast.py`. -/
inductive PTok where
  | whitespace (line col : Int)
  | comment (line col : Int) (value : List Char)
  | literal (line col : Int) (value : List Char)
  | ident (line col : Int) (value lowerValue : List Char)
  | atKeyword (line col : Int) (value lowerValue : List Char)
  | hash (line col : Int) (value : List Char) (isIdentifier : Bool)
  | str (line col : Int) (value : List Char)
  | url (line col : Int) (value : List Char)
  | unicodeRange (line col : Int) (start stop : Nat)
  | number (line col : Int) (value : Rat) (intValue : Option Int)
      (rep : List Char)
  | percentage (line col : Int) (value : Rat) (intValue : Option Int)
      (rep : List Char)
  | dimension (line col : Int) (value : Rat) (intValue : Option Int)
      (rep : List Char) (unit lowerUnit : List Char)
  | parenBlock (line col : Int) (content : List PTok)
  | squareBlock (line col : Int) (content : List PTok)
  | curlyBlock (line col : Int) (content : List PTok)
  | functionBlock (line col : Int) (name lowerName : List Char)
      (arguments : List PTok)
  deriving Repr

/-- The `type` attribute of each `tinycss2/ast.py` class. -/
def ptype : PTok → String
  | .whitespace .. => "whitespace"
  | .comment .. => "comment"
  | .literal .. => "literal"
  | .ident .. => "ident"
  | .atKeyword .. => "at-keyword"
  | .hash .. => "hash"
  | .str .. => "string"
  | .url .. => "url"
  | .unicodeRange .. => "unicode-range"
  | .number .. => "number"
  | .percentage .. => "percentage"
  | .dimension .. => "dimension"
  | .parenBlock .. => "() block"
  | .squareBlock .. => "[] block"
  | .curlyBlock .. => "\x7b\x7d block"
  | .functionBlock .. => "function"

def psourceLine : PTok → Int
  | .whitespace line _ | .comment line _ _ | .literal line _ _
  | .ident line _ _ _ | .atKeyword line _ _ _ | .hash line _ _ _
  | .str line _ _ | .url line _ _ | .unicodeRange line _ _ _
  | .number line _ _ _ _ | .percentage line _ _ _ _
  | .dimension line _ _ _ _ _ _ | .parenBlock line _ _
  | .squareBlock line _ _ | .curlyBlock line _ _
  | .functionBlock line _ _ _ _ => line

def psourceColumn : PTok → Int
  | .whitespace _ col | .comment _ col _ | .literal _ col _
  | .ident _ col _ _ | .atKeyword _ col _ _ | .hash _ col _ _
  | .str _ col _ | .url _ col _ | .unicodeRange _ col _ _
  | .number _ col _ _ _ | .percentage _ col _ _ _
  | .dimension _ col _ _ _ _ _ | .parenBlock _ col _
  | .squareBlock _ col _ | .curlyBlock _ col _
  | .functionBlock _ col _ _ _ => col

/-- The `value` attribute of an ident (`lower_value` is the folded
form).  Only consulted after a `type == 'ident'` check, like the
source. -/
def pidentValue : PTok → List Char
  | .ident _ _ value _ => value
  | _ => []

def plowerValue : PTok → List Char
  | .ident _ _ _ lowerValue => lowerValue
  | .atKeyword _ _ _ lowerValue => lowerValue
  | _ => []

/-- Python `token == s` for a string `s`: `LiteralToken.__eq__` compares
the literal's `value` with the string; every other node class inherits
identity equality, so the comparison is false. -/
def eqStr (t : PTok) (s : String) : Bool :=
  match t with
  | .literal _ _ value => value = s.data
  | _ => false

/-- Embeds `_next_significant` (parser.py lines 22-32), returning the
first token whose type is neither whitespace nor comment together with
the not-yet-consumed rest of the iterator. -/
def next_significant : List PTok → Option (PTok × List PTok)
  | [] => none
  | t :: ts =>
    if ptype t ≠ "whitespace" ∧ ptype t ≠ "comment" then some (t, ts)
    else next_significant ts

/-- Result of `_parse_declaration`: a `Declaration` or `ParseError`
node (`tinycss2/ast.py`). -/
inductive DeclResult where
  | declaration (line col : Int) (name lowerName : List Char)
      (value : List PTok) (important : Bool)
  | parseError (line col : Int) (kind : String) (message : String)
  deriving Repr

/-- State of the `!important` scan of `_parse_declaration`
(parser.py lines 130-150): the Python `state` variable. -/
inductive BState where
  | value
  | bang
  | important
  deriving DecidableEq, Repr

/-- The loop state: `state`, `bang_position`, the accumulated `value`
list and the two block flags.  `bang_position` is the enumerate index
`i`, which always equals the length of `value` at assignment time since
every token is appended. -/
structure ScanS where
  state : BState
  bangPos : Nat
  value : List PTok
  nonWs : Bool
  simpleBlock : Bool
  deriving Repr

/-- One iteration of the `for i, token in enumerate(tokens)` loop of
`_parse_declaration` (parser.py lines 134-150). -/
def declStep (s : ScanS) (t : PTok) : ScanS :=
  let s' :=
    if s.state = .value ∧ eqStr t "!" then
      { s with state := .bang, bangPos := s.value.length }
    else if s.state = .bang ∧ ptype t = "ident" ∧
        plowerValue t = "important".data then
      { s with state := .important }
    else if ptype t ≠ "whitespace" ∧ ptype t ≠ "comment" then
      if ptype t = "\x7b\x7d block" then
        if s.nonWs then { s with state := .value, simpleBlock := true }
        else { s with state := .value, nonWs := true }
      else { s with state := .value, nonWs := true }
    else s
  { s' with value := s'.value ++ [t] }

def declScan (tokens : List PTok) : ScanS :=
  tokens.foldl declStep ⟨.value, 0, [], false, false⟩

/-- Embeds `_parse_declaration` (parser.py lines 95-166).  The
`_consume_remnants` calls on the error paths only drain the iterator
and do not affect the returned node, so they have no counterpart
here. -/
def parse_declaration (firstToken : PTok) (tokens : List PTok) : DeclResult :=
  if ptype firstToken ≠ "ident" then
    .parseError (psourceLine firstToken) (psourceColumn firstToken) "invalid"
      ("Expected <ident> for declaration name, got " ++ ptype firstToken ++ ".")
  else
    match next_significant tokens with
    | none =>
      .parseError (psourceLine firstToken) (psourceColumn firstToken) "invalid"
        "Expected ':' after declaration name, got EOF"
    | some (colon, rest) =>
      if ¬ eqStr colon ":" then
        .parseError (psourceLine colon) (psourceColumn colon) "invalid"
          "Expected ':' after declaration name, got \x7bcolon.type\x7d."
      else
        let s := declScan rest
        let value :=
          if s.state = .important then s.value.take s.bangPos else s.value
        if s.simpleBlock ∧ s.nonWs then
          .parseError (psourceLine colon) (psourceColumn colon) "invalid"
            "Declaration contains \x7b\x7d block"
        else
          .declaration (psourceLine firstToken) (psourceColumn firstToken)
            (pidentValue firstToken) (plowerValue firstToken) value
            (s.state = .important)

/-- Embeds `parse_one_declaration` (parser.py lines 63-84) on an
already-tokenized sequence. -/
def parse_one_declaration (tokens : List PTok) : DeclResult :=
  match next_significant tokens with
  | none => .parseError 1 1 "empty" "Input is empty"
  | some (firstToken, rest) => parse_declaration firstToken rest

/-!
## Colour parser (`tinycss2/color4.py`)

Channel and alpha arithmetic is exact division and clamping, embedded
over the rationals.  The colour functions consume the modern component
values (`PTok`).
-/

/-- The `Color` class of color4.py: a colour space, three parameters,
an alpha channel, plus the originating function name and the recorded
`args` (with `None` for `none` channels). -/
structure Color where
  functionName : List Char
  args : List (Option Rat)
  space : List Char
  params : List Rat
  alpha : Rat
  deriving DecidableEq, Repr

/-- The right-hand operand shapes distinguished by `Color.__eq__`
(color4.py lines 98-105): a string, a tuple of floats, or another
`Color`. -/
inductive EqOperand where
  | pystr (s : List Char)
  | pytuple (t : List Rat)
  | pycolor (c : Color)
  deriving Repr

/-- Embeds `Color.__eq__`: strings are never equal; a tuple is compared
with `tuple(self)`, which `__iter__` defines as the params followed by
alpha; another `Color` is compared by `space` and `params` only. -/
def color_eq (self : Color) (other : EqOperand) : Bool :=
  match other with
  | .pystr _ => false
  | .pytuple t => self.params ++ [self.alpha] = t
  | .pycolor o => self.space = o.space ∧ self.params = o.params

/-- A Python value read from a token's `value` attribute: numeric
tokens hold numbers, idents and strings hold text. -/
inductive PyVal where
  | num (q : Rat)
  | strv (s : List Char)
  deriving DecidableEq, Repr

/-- Reads `arg.value` as the colour parsers do.  Node classes without a
`value` attribute would raise AttributeError; the parsers only reach
this after filtering whitespace/comments and checking types, so the
fallback is never consulted. -/
def cvalue : PTok → PyVal
  | .number _ _ value _ _ => .num value
  | .percentage _ _ value _ _ => .num value
  | .dimension _ _ value _ _ _ _ => .num value
  | .ident _ _ value _ => .strv value
  | .str _ _ value => .strv value
  | .literal _ _ value => .strv value
  | .hash _ _ value _ => .strv value
  | .url _ _ value => .strv value
  | _ => .strv []

/-- Numeric reading of a `PyVal`; the string case would be a Python
TypeError in arithmetic and is unreachable after the type checks. -/
def PyVal.toQ : PyVal → Rat
  | .num q => q
  | .strv _ => 0

/-- Embeds `_parse_alpha` (color4.py lines 182-195): no token means 1,
a single number or percentage is clamped into [0, 1], anything else
yields `None`. -/
def parse_alpha (args : List PTok) : Option Rat :=
  match args with
  | [] => some 1
  | [a] =>
    if ptype a = "number" then some (min 1 (max 0 (cvalue a).toQ))
    else if ptype a = "percentage" then
      some (min 1 (max 0 ((cvalue a).toQ / 100)))
    else none
  | _ => none

/-- The `none`-replacement loop of `_parse_rgb` (color4.py lines
207-210): an ident `none` channel takes type `number` if some other
channel already has (or will have) that type in the current list, else
`percentage`, and value 0.  The membership test reads the list as
mutated so far. -/
def noneReplaceLoop : List PTok → Nat → List String → List PyVal →
    List String × List PyVal
  | [], _, types, values => (types, values)
  | arg :: rest, i, types, values =>
    if ptype arg = "ident" ∧ plowerValue arg = "none".data then
      let t := if "number" ∈ types then "number" else "percentage"
      noneReplaceLoop rest (i + 1) (types.set i t) (values.set i (.num 0))
    else
      noneReplaceLoop rest (i + 1) types values

/-- Embeds `_parse_rgb` (color4.py lines 198-218): three numbers scale
by 1/255, three percentages by 1/100, with no clamping; the recorded
`args` replace `none` idents by `None`. -/
def parse_rgb (args : List PTok) (alpha : Rat) : Option Color :=
  let types := args.map ptype
  let values := args.map cvalue
  let (types, values) := noneReplaceLoop args 0 types values
  let params? : Option (List Rat) :=
    if types = ["number", "number", "number"] then
      some (values.map fun v => v.toQ / 255)
    else if types = ["percentage", "percentage", "percentage"] then
      some (values.map fun v => v.toQ / 100)
    else none
  match params? with
  | none => none
  | some params =>
    let recorded := (args.zip params).map fun (arg, param) =>
      if ptype arg = "ident" then none else some param
    some ⟨"rgb".data, recorded, "srgb".data, params, alpha⟩

/-- Elements at even indices (Python `tokens[::2]`). -/
def everyOther : List PTok → List PTok
  | [] => []
  | [a] => [a]
  | a :: _ :: rest => a :: everyOther rest

/-- Embeds the `token.type == 'function'` branch of `parse_color`
(color4.py lines 143-179) applied to an `rgb`/`rgba` function:
whitespace/comment filtering, the legacy-comma / space / slash-alpha
classification of the argument list, alpha parsing, and the dispatch to
`_parse_rgb`.  The other colour families (`hsl`, `hwb`, `lab`, `lch`,
`oklab`, `oklch`, `color`) involve transcendental colour-space
conversions and are not part of this development; the dispatch returns
`none` for them, and no theorem below evaluates it there. -/
def parse_color_fn (name : List Char) (arguments : List PTok) :
    Option Color :=
  let tokens := arguments.filter fun t =>
    ptype t ≠ "whitespace" ∧ ptype t ≠ "comment"
  let length := tokens.length
  let classified : Option (Bool × List PTok) :=
    if (length = 5 ∨ length = 7) ∧
        ((everyOther (tokens.drop 1)).all fun t => eqStr t ",") then
      some (true, everyOther tokens)
    else if length = 3 then
      some (false, tokens)
    else if length = 5 ∧ (tokens.get? 3).any (fun t => eqStr t "/") then
      some (false, tokens.take 3 ++ tokens.drop 4)
    else none
  match classified with
  | none => none
  | some (_oldSyntax, tokens) =>
    match parse_alpha (tokens.drop 3) with
    | none => none
    | some alpha =>
      if name = "rgb".data ∨ name = "rgba".data then
        parse_rgb (tokens.take 3) alpha
      else none

/-!
## Byte-stream decoder (`tinycss2/bytes.py`)

Byte strings are `List Nat` (values 0-255).  The `webencodings`
dependency is external to the repository, so its `lookup` and `decode`
are modelled from the spec below; the branching of
`decode_stylesheet_bytes` itself is translated from the source.
-/

/-- The encodings the modelled label table can resolve to. -/
inductive Encoding where
  | utf8
  | utf16be
  | utf16le
  | latin1
  deriving DecidableEq, Repr

/-- Modelled from the spec: `webencodings.lookup` strips ASCII
whitespace from the label, lowercases it and resolves it through the
WHATWG label table (an excerpt suffices here); an absent or unknown
label resolves to nothing. -/
def weLookup : Option String → Option Encoding
  | none => none
  | some label =>
    let normalized : List Char :=
      ascii_lower (((label.data.dropWhile fun c =>
        c = ' ' ∨ c = '\t' ∨ c = '\n' ∨ c = '\x0C' ∨ c = '\r').reverse.dropWhile
          fun c =>
            c = ' ' ∨ c = '\t' ∨ c = '\n' ∨ c = '\x0C' ∨ c = '\r').reverse)
    if normalized = "utf-8".data ∨ normalized = "utf8".data then some .utf8
    else if normalized = "utf-16be".data then some .utf16be
    else if normalized = "utf-16le".data ∨ normalized = "utf-16".data then
      some .utf16le
    else if normalized = "latin1".data ∨ normalized = "iso-8859-1".data then
      some .latin1
    else none

/-- UTF-8 decoding with U+FFFD replacement for invalid sequences; the
fuel is at least the number of bytes, and each step consumes at least
one byte. -/
def decodeUtf8 : Nat → List Nat → List Char
  | 0, _ => []
  | _, [] => []
  | fuel + 1, b :: rest =>
    if b < 0x80 then Char.ofNat b :: decodeUtf8 fuel rest
    else if 0xC2 ≤ b ∧ b ≤ 0xDF then
      match rest with
      | b2 :: rest2 =>
        if 0x80 ≤ b2 ∧ b2 ≤ 0xBF then
          Char.ofNat ((b - 0xC0) * 64 + (b2 - 0x80)) :: decodeUtf8 fuel rest2
        else '�' :: decodeUtf8 fuel (b2 :: rest2)
      | [] => ['�']
    else if 0xE0 ≤ b ∧ b ≤ 0xEF then
      match rest with
      | b2 :: b3 :: rest3 =>
        if 0x80 ≤ b2 ∧ b2 ≤ 0xBF ∧ 0x80 ≤ b3 ∧ b3 ≤ 0xBF then
          let cp := (b - 0xE0) * 4096 + (b2 - 0x80) * 64 + (b3 - 0x80)
          (if 0xD800 ≤ cp ∧ cp ≤ 0xDFFF then '�' else Char.ofNat cp) ::
            decodeUtf8 fuel rest3
        else '�' :: decodeUtf8 fuel (b2 :: b3 :: rest3)
      | _ => ['�']
    else if 0xF0 ≤ b ∧ b ≤ 0xF4 then
      match rest with
      | b2 :: b3 :: b4 :: rest4 =>
        if 0x80 ≤ b2 ∧ b2 ≤ 0xBF ∧ 0x80 ≤ b3 ∧ b3 ≤ 0xBF ∧
            0x80 ≤ b4 ∧ b4 ≤ 0xBF then
          let cp := (b - 0xF0) * 262144 + (b2 - 0x80) * 4096 +
            (b3 - 0x80) * 64 + (b4 - 0x80)
          (if cp ≤ 0x10FFFF then Char.ofNat cp else '�') ::
            decodeUtf8 fuel rest4
        else '�' :: decodeUtf8 fuel (b2 :: b3 :: b4 :: rest4)
      | _ => ['�']
    else '�' :: decodeUtf8 fuel rest

/-- Pair up big- or little-endian 16-bit units, combining surrogate
pairs and replacing lone surrogates or a trailing odd byte with
U+FFFD. -/
def decodeUtf16 (bigEndian : Bool) : Nat → List Nat → List Char
  | 0, _ => []
  | _, [] => []
  | _, [_] => ['�']
  | fuel + 1, b1 :: b2 :: rest =>
    let u := if bigEndian then b1 * 256 + b2 else b2 * 256 + b1
    if 0xD800 ≤ u ∧ u ≤ 0xDBFF then
      match rest with
      | b3 :: b4 :: rest2 =>
        let u2 := if bigEndian then b3 * 256 + b4 else b4 * 256 + b3
        if 0xDC00 ≤ u2 ∧ u2 ≤ 0xDFFF then
          Char.ofNat (0x10000 + (u - 0xD800) * 1024 + (u2 - 0xDC00)) ::
            decodeUtf16 bigEndian fuel rest2
        else '�' :: decodeUtf16 bigEndian fuel (b3 :: b4 :: rest2)
      | _ => ['�']
    else if 0xDC00 ≤ u ∧ u ≤ 0xDFFF then
      '�' :: decodeUtf16 bigEndian fuel rest
    else Char.ofNat u :: decodeUtf16 bigEndian fuel rest

/-- Modelled from the spec: `webencodings.decode` strips the chosen
encoding's byte-order mark and decodes with U+FFFD replacement, never
raising. -/
def weDecode (cssBytes : List Nat) (enc : Encoding) : List Char :=
  match enc with
  | .utf8 =>
    let body := if [0xEF, 0xBB, 0xBF].isPrefixOf cssBytes then
      cssBytes.drop 3 else cssBytes
    decodeUtf8 (body.length + 1) body
  | .utf16be =>
    let body := if [0xFE, 0xFF].isPrefixOf cssBytes then
      cssBytes.drop 2 else cssBytes
    decodeUtf16 true (body.length + 1) body
  | .utf16le =>
    let body := if [0xFF, 0xFE].isPrefixOf cssBytes then
      cssBytes.drop 2 else cssBytes
    decodeUtf16 false (body.length + 1) body
  | .latin1 => cssBytes.map Char.ofNat

/-- The ASCII bytes of `@charset "`. -/
def atCharsetMagic : List Nat :=
  [0x40, 0x63, 0x68, 0x61, 0x72, 0x73, 0x65, 0x74, 0x20, 0x22]

/-- Embeds `decode_stylesheet_bytes` (bytes.py lines 7-43).  Inside the
`@charset` branch the source executes
`end_quote = css_bytes.find('"', 10, 100)`, passing a `str` pattern to
`bytes.find`; Python 3 raises
`TypeError: argument should be integer or bytes-like object, not 'str'`
before any label can be read (the `css_bytes.startswith('";', ...)` and
`lookup(css_bytes[10:end_quote])` calls that follow repeat the
bytes/str confusion). -/
def decode_stylesheet_bytes (cssBytes : List Nat)
    (protocolEncoding linkEncoding documentEncoding : Option String) :
    Except PyErr (List Char × Bool) :=
  match weLookup protocolEncoding with
  | some fallback => .ok (weDecode cssBytes fallback, false)
  | none =>
    if atCharsetMagic.isPrefixOf cssBytes then
      .error .typeError
    else
      match weLookup linkEncoding with
      | some fallback => .ok (weDecode cssBytes fallback, false)
      | none =>
        match weLookup documentEncoding with
        | some fallback => .ok (weDecode cssBytes fallback, false)
        | none => .ok (weDecode cssBytes .utf8, false)

/-!
## Serialization of comments (`tinycss2/ast.py`)
-/

/-- Embeds `Comment._serialize_to` (ast.py lines 106-109): `/*`, the
stored value, `*/`. -/
def comment_serialize (value : List Char) : List Char :=
  "/*".data ++ value ++ "*/".data

/-!
## Specification-side predicates

The following definitions render sentences of the specification (not
the code); they are compared against the embedded parser.
-/

/-- Is a token a whitespace or comment node? -/
def wsc (t : PTok) : Bool :=
  decide (ptype t = "whitespace") || decide (ptype t = "comment")

/-- Is a token a `!` literal? -/
def isBang (t : PTok) : Bool := eqStr t "!"

/-- Is a token an ident whose `lower_value` is `important`? -/
def isImportantIdent (t : PTok) : Bool :=
  decide (ptype t = "ident") && decide (plowerValue t = "important".data)

/-- Does the sequence consist of optional whitespace/comments, then an
ident `important`, then only whitespace/comments up to the end? -/
def wsImpWs (ts : List PTok) : Bool :=
  match ts.dropWhile wsc with
  | t :: rest => isImportantIdent t && rest.all wsc
  | [] => false

/-- Following the spec's words: the value ends with a `!` literal,
followed by optional whitespace/comments, followed by an ident whose
lower_value is `important`, followed by only whitespace/comments up to
the end. -/
def spec_trailing_important : List PTok → Bool
  | [] => false
  | t :: rest => (isBang t && wsImpWs rest) || spec_trailing_important rest

/-- Is a token significant (neither whitespace nor comment)? -/
def sigTok (t : PTok) : Bool := !(wsc t)

/-- Is a token a `{}` block? -/
def isCurly (t : PTok) : Bool := ptype t = "\x7b\x7d block"

def containsBlock (ts : List PTok) : Bool := ts.any isCurly

/-- Does a significant token strictly precede a `{}` block? -/
def sigThenBlock : List PTok → Bool
  | [] => false
  | t :: rest => (sigTok t && containsBlock rest) || sigThenBlock rest

/-- Does the token list contain a dimension token with unit `%`? -/
def anyDimensionPercent (ts : List Tok) : Bool :=
  ts.any fun t =>
    match t with
    | .dimension _ _ _ _ _ unit _ => unit = ['%']
    | _ => false

/-- No token of the list is a `!` literal. -/
def noBang (ts : List PTok) : Bool := ts.all fun t => !(isBang t)

/-- The declaration scan restarted from an arbitrary state. -/
def declScanFrom (s : ScanS) (ts : List PTok) : ScanS :=
  ts.foldl declStep s

/-- The bytes of `@charset "utf-8";`. -/
def charsetUtf8Bytes : List Nat :=
  atCharsetMagic ++ [0x75, 0x74, 0x66, 0x2D, 0x38, 0x22, 0x3B]

/-!
## Theorems
-/

/-- C1.  The round-trip contract
`tokenize(serialize(tokenize(s))) = tokenize(s)` cannot hold for every
string: already `tokenize("a")` raises AttributeError.  Inside
`_consume_ident`, `_NON_NAME_CHAR_RE` (which has no `|$` alternative)
finds no match after position 0 of `"a"`, so the search returns `None`
and `.start()` raises.  The second conjunct checks the search failure;
the third shows the companion path: when a non-name character does
follow the ident, the match succeeds and the undefined name `chuncks`
raises NameError instead.  Either way the claimed equation is undefined
on any input containing an identifier. -/
theorem tokenize_ident_raises_attributeError :
    tokenize "a" = .error .attributeError ∧
    nonNameSearch "a".data 0 = none ∧
    consume_ident "a(".data 0 = .error .nameError :=
  ⟨rfl, rfl, rfl⟩

/-- C4.  `tokenize("1e3")` raises ValueError: the tokenizer leaves
`is_integer` true when only an exponent (and no decimal point) follows
the digits, then evaluates `int('1e3')`.  The claim's int/float
coherence (no `int_value` when an exponent is present) is the
documented intent (`tokens.py`: is_integer is true iff "no `.` decimal
point, no scientific notation"), which the code contradicts. -/
theorem tokenize_exponent_raises_valueError :
    tokenize "1e3" = .error .valueError ∧
    numberMatch "1e3".data 0 = some (true, 1) ∧
    pyInt "1e3".data = .error .valueError :=
  ⟨rfl, rfl, rfl⟩

/-- C10.  At the public tokenizer interface, `tokenize("url()")` raises
NameError while consuming the ident `url` (the `chuncks` slip in
`_consume_ident`), before `_consume_url` can run; `_consume_url` itself,
applied at the position just after `url(`, does return the empty url as
the claim describes. -/
theorem tokenize_empty_url_raises_nameError :
    tokenize "url()" = .error .nameError ∧
    consume_url "url()".data 4 = .ok (some [], 5) ∧
    consume_url "url(  )".data 4 = .ok (some [], 7) :=
  ⟨rfl, rfl, rfl⟩

/-- C6.  With no protocol encoding, a buffer starting with the ten
bytes `@charset "` makes `decode_stylesheet_bytes` raise TypeError
(`bytes.find` is given the `str` pattern `'"'`), instead of resolving
the quoted label; a resolvable protocol encoding still takes priority
and decodes, and the UTF-8 default applies to unlabelled input. -/
theorem decode_charset_branch_raises_typeError :
    decode_stylesheet_bytes charsetUtf8Bytes none none none =
      .error .typeError ∧
    decode_stylesheet_bytes charsetUtf8Bytes (some "utf-8") none none =
      .ok (weDecode charsetUtf8Bytes .utf8, false) ∧
    decode_stylesheet_bytes [0x61] none (some "utf-16le") (some "utf-8") =
      .ok (weDecode [0x61] .utf16le, false) ∧
    decode_stylesheet_bytes [0x61] none none none = .ok (['a'], false) :=
  ⟨rfl, rfl, rfl, rfl⟩

/-- C3 counterexample.  `tokenize("1%")` emits a dimension token whose
unit is `%` — the tokenizer has no percentage variant at all — so the
claim that no dimension token ever has unit `%` is false. -/
theorem tokenize_percent_emits_dimension :
    tokenize "1%" =
      .ok [.dimension 1 1 (.int 1) ['1'] true ['%'] ['%']] ∧
    anyDimensionPercent [.dimension 1 1 (.int 1) ['1'] true ['%'] ['%']] =
      true :=
  ⟨rfl, rfl⟩

/-- C3 amended.  A numeric literal immediately followed by `%` is
emitted as a dimension token with unit `%` (the tokenizer represents
percentages as dimensions with unit `%`, as documented in tokens.py):
whenever the number branch fires with a `%` at the match end and the
numeric conversion of the representation succeeds, the emitted token is
a dimension with unit `%` and consumption resumes after the `%`. -/
theorem number_followed_by_percent_is_percent_dimension
    (css : List Char) (tokenStartPos : Nat) (line column : Int)
    (isInteger : Bool) (mEnd : Nat) (v : PyNum)
    (hlt : mEnd < css.length) (hpc : css.get? mEnd = some '%')
    (hv : pyNumValue isInteger (pySlice css tokenStartPos mEnd) = .ok v) :
    handle_number css tokenStartPos line column isInteger mEnd =
      .ok (.dimension line column v (pySlice css tokenStartPos mEnd)
        isInteger ['%'] ['%'], mEnd + 1) := by
  simp only [handle_number, hlt, hpc, and_self, if_pos, true_and, hv]
  rfl

theorem number_followed_by_percent_is_percent_dimension_witness :
    handle_number "1%".data 0 1 1 true 1 =
      .ok (.dimension 1 1 (.int 1) ['1'] true ['%'] ['%'], 2) :=
  number_followed_by_percent_is_percent_dimension "1%".data 0 1 1 true 1
    (.int 1) (by decide) (by decide) rfl

/-- C8 counterexample.  The tokenizer never produces comment tokens:
`tokenize("/* foo ")` hits the unterminated-comment `break` and returns
the empty token list, not a comment token with value `"foo "`. -/
theorem tokenize_unterminated_comment_yields_nothing :
    tokenize "/* foo " = .ok [] := rfl

/-- C8 amended.  The tokenizer skips comments entirely: a closed
comment contributes no token, and a comment reaching EOF before `*/`
ends tokenization at once (so `tokenize("/* foo ")` is `[]`); the
`Comment` node class of ast.py, however, does serialize by emitting
`/*`, its value, then `*/`: a comment node holding the text that
followed the `/*` of `/* foo ` (namely `\x20foo\x20`) serializes to
exactly `/* foo */`.  (With the claim's literal value `foo\x20` the
serialization would be `/*foo */`, not `/* foo */`.) -/
theorem comment_skipping_and_comment_serialization :
    tokenize "/* foo " = .ok [] ∧
    tokenize "/*a*/ " = .ok [.whitespace 1 6] ∧
    comment_serialize " foo ".data = "/* foo */".data ∧
    comment_serialize "foo ".data = "/*foo */".data :=
  ⟨rfl, rfl, rfl, rfl⟩

/-- C9.  `Color.__eq__` compares two colours by `space` and `params`
only: alpha, `function_name` and `args` never influence the result; a
colour never equals a string; and a colour equals the tuple of its
params followed by its alpha. -/
theorem color_eq_compares_space_and_params :
    (∀ a b : Color,
      color_eq a (.pycolor b) = true ↔ a.space = b.space ∧ a.params = b.params) ∧
    (∀ (fn fn' : List Char) (ar ar' : List (Option Rat)) (sp : List Char)
        (pr : List Rat) (al al' : Rat),
      color_eq ⟨fn, ar, sp, pr, al⟩ (.pycolor ⟨fn', ar', sp, pr, al'⟩) = true) ∧
    (∀ (a : Color) (s : List Char), color_eq a (.pystr s) = false) ∧
    (∀ a : Color, color_eq a (.pytuple (a.params ++ [a.alpha])) = true) := by
  refine ⟨fun a b => ?_, fun fn fn' ar ar' sp pr al al' => ?_,
    fun a s => ?_, fun a => ?_⟩ <;> simp [color_eq]

/-- Helper: the legacy comma syntax with three percentage channels. -/
lemma parse_color_fn_legacy_percentages
    (l1 c1 l2 c2 l3 c3 lc1 cc1 lc2 cc2 : Int) (p1 p2 p3 : Rat)
    (i1 i2 i3 : Option Int) (r1 r2 r3 : List Char) :
    parse_color_fn "rgb".data
        [.percentage l1 c1 p1 i1 r1, .literal lc1 cc1 [','],
         .percentage l2 c2 p2 i2 r2, .literal lc2 cc2 [','],
         .percentage l3 c3 p3 i3 r3] =
      some ⟨"rgb".data, [some (p1 / 100), some (p2 / 100), some (p3 / 100)],
        "srgb".data, [p1 / 100, p2 / 100, p3 / 100], 1⟩ := by
  simp [parse_color_fn, ptype, eqStr, everyOther, parse_alpha, parse_rgb,
    noneReplaceLoop, cvalue, PyVal.toQ]

/-- C7.  On `rgb()`/`rgba()` with three percentage channels,
`parse_color` divides every channel by 100 with no clamping (so
`rgb(-10%, 120%, 0%)` yields sRGB params `(-0.1, 1.2, 0)`), while the
alpha channel is always clamped to `[0, 1]`: an absent alpha is 1, a
number alpha is clamped, a percentage alpha is divided by 100 and
clamped, and any other alpha token invalidates the colour. -/
theorem parse_color_rgb_unclamped_channels_clamped_alpha :
    (∀ (l1 c1 l2 c2 l3 c3 lc1 cc1 lc2 cc2 : Int) (p1 p2 p3 : Rat)
        (i1 i2 i3 : Option Int) (r1 r2 r3 : List Char),
      parse_color_fn "rgb".data
          [.percentage l1 c1 p1 i1 r1, .literal lc1 cc1 [','],
           .percentage l2 c2 p2 i2 r2, .literal lc2 cc2 [','],
           .percentage l3 c3 p3 i3 r3] =
        some ⟨"rgb".data, [some (p1 / 100), some (p2 / 100), some (p3 / 100)],
          "srgb".data, [p1 / 100, p2 / 100, p3 / 100], 1⟩) ∧
    (parse_color_fn "rgb".data
        [.percentage 1 5 (-10) none "-10".data, .literal 1 9 [','],
         .percentage 1 11 120 (some 120) "120".data, .literal 1 15 [','],
         .percentage 1 17 0 (some 0) "0".data] =
      some ⟨"rgb".data, [some (-(1 : Rat) / 10), some ((6 : Rat) / 5), some 0],
        "srgb".data, [-(1 : Rat) / 10, (6 : Rat) / 5, 0], 1⟩) ∧
    (∀ (la ca : Int) (a : Rat) (ia : Option Int) (ra : List Char),
      parse_color_fn "rgb".data
          [.percentage 1 1 0 (some 0) ['0'], .percentage 1 2 0 (some 0) ['0'],
           .percentage 1 3 0 (some 0) ['0'], .literal 1 4 ['/'],
           .number la ca a ia ra] =
        some ⟨"rgb".data, [some 0, some 0, some 0], "srgb".data, [0, 0, 0],
          min 1 (max 0 a)⟩) ∧
    (∀ (la ca : Int) (a : Rat) (ia : Option Int) (ra : List Char),
      parse_color_fn "rgb".data
          [.percentage 1 1 0 (some 0) ['0'], .percentage 1 2 0 (some 0) ['0'],
           .percentage 1 3 0 (some 0) ['0'], .literal 1 4 ['/'],
           .percentage la ca a ia ra] =
        some ⟨"rgb".data, [some 0, some 0, some 0], "srgb".data, [0, 0, 0],
          min 1 (max 0 (a / 100))⟩) ∧
    (∀ t : PTok, ptype t ≠ "number" → ptype t ≠ "percentage" →
      ptype t ≠ "whitespace" → ptype t ≠ "comment" →
      parse_color_fn "rgb".data
          [.percentage 1 1 0 (some 0) ['0'], .percentage 1 2 0 (some 0) ['0'],
           .percentage 1 3 0 (some 0) ['0'], .literal 1 4 ['/'], t] =
        none) ∧
    (∀ arguments : List PTok,
      parse_color_fn "rgba".data arguments =
        parse_color_fn "rgb".data arguments) := by
  refine ⟨parse_color_fn_legacy_percentages, ?_, fun la ca a ia ra => ?_,
    fun la ca a ia ra => ?_, fun t h1 h2 h3 h4 => ?_, fun arguments => ?_⟩
  · rw [parse_color_fn_legacy_percentages]
    norm_num
  · simp [parse_color_fn, ptype, eqStr, everyOther, parse_alpha, parse_rgb,
      noneReplaceLoop, cvalue, PyVal.toQ]
  · simp [parse_color_fn, ptype, eqStr, everyOther, parse_alpha, parse_rgb,
      noneReplaceLoop, cvalue, PyVal.toQ]
  · cases t <;> simp_all [parse_color_fn, ptype, eqStr, everyOther,
      parse_alpha, parse_rgb, noneReplaceLoop, cvalue, PyVal.toQ]
  · simp [parse_color_fn]

theorem parse_color_rgb_unclamped_channels_clamped_alpha_witness :
    parse_color_fn "rgb".data
        [.percentage 1 1 0 (some 0) ['0'], .percentage 1 2 0 (some 0) ['0'],
         .percentage 1 3 0 (some 0) ['0'], .literal 1 4 ['/'],
         .str 1 6 "x".data] =
      none :=
  parse_color_rgb_unclamped_channels_clamped_alpha.2.2.2.2.1
    (.str 1 6 "x".data) (by decide) (by decide) (by decide) (by decide)



lemma noBang_cons (t : PTok) (ts : List PTok) :
    noBang (t :: ts) = (!(isBang t) && noBang ts) := by
  simp [noBang]

lemma declScanFrom_cons (s : ScanS) (t : PTok) (ts : List PTok) :
    declScanFrom s (t :: ts) = declScanFrom (declStep s t) ts := rfl

lemma declStep_value (s : ScanS) (t : PTok) :
    (declStep s t).value = s.value ++ [t] := by
  simp only [declStep]
  repeat' split
  all_goals rfl

lemma declStep_bangPos (s : ScanS) (t : PTok) (h : isBang t = false) :
    (declStep s t).bangPos = s.bangPos := by
  simp only [declStep, isBang] at h ⊢
  rw [h]
  repeat' split
  all_goals simp_all

lemma wsc_not_bang (t : PTok) (h : wsc t = true) : isBang t = false := by
  revert h
  cases t <;> intro h <;> first
    | rfl
    | exact Bool.noConfusion h

lemma declStep_wsc (s : ScanS) (t : PTok) (h : wsc t = true) :
    (declStep s t).state = s.state ∧ (declStep s t).nonWs = s.nonWs ∧
      (declStep s t).simpleBlock = s.simpleBlock := by
  have hb := wsc_not_bang t h
  simp only [isBang] at hb
  simp only [wsc, Bool.or_eq_true, decide_eq_true_eq] at h
  simp only [declStep, hb]
  rcases h with h | h <;> simp [h]

lemma declStep_state_value (s : ScanS) (t : PTok) (h : isBang t = false)
    (hs : s.state = .value) : (declStep s t).state = .value := by
  simp only [isBang] at h
  simp only [declStep, h, hs]
  repeat' split
  all_goals simp_all

lemma declStep_sig_state (s : ScanS) (t : PTok) (h : isBang t = false)
    (hw : wsc t = false)
    (hni : ¬(s.state = .bang ∧ ptype t = "ident" ∧
      plowerValue t = "important".data)) :
    (declStep s t).state = .value := by
  simp only [isBang] at h
  simp only [wsc, Bool.or_eq_false_iff, decide_eq_false_iff_not] at hw
  simp only [declStep, h]
  repeat' split
  all_goals simp_all

lemma declScanFrom_value_eq (ts : List PTok) :
    ∀ s : ScanS, (declScanFrom s ts).value = s.value ++ ts := by
  induction ts with
  | nil => intro s; simp [declScanFrom]
  | cons t rest ih =>
    intro s
    rw [declScanFrom_cons, ih, declStep_value]
    simp

lemma declScanFrom_bangPos_eq (ts : List PTok) :
    ∀ s : ScanS, noBang ts = true →
      (declScanFrom s ts).bangPos = s.bangPos := by
  induction ts with
  | nil => intro s _; simp [declScanFrom]
  | cons t rest ih =>
    intro s h
    rw [noBang_cons, Bool.and_eq_true] at h
    rw [declScanFrom_cons, ih _ h.2, declStep_bangPos]
    simpa using h.1

lemma declScanFrom_state_value (ts : List PTok) :
    ∀ s : ScanS, noBang ts = true → s.state = .value →
      (declScanFrom s ts).state = .value := by
  induction ts with
  | nil => intro s _ hs; simpa [declScanFrom] using hs
  | cons t rest ih =>
    intro s h hs
    rw [noBang_cons, Bool.and_eq_true] at h
    rw [declScanFrom_cons]
    exact ih _ h.2 (declStep_state_value s t (by simpa using h.1) hs)


lemma declStep_bang_imp (s : ScanS) (t : PTok) (hs : s.state = .bang)
    (hi : isImportantIdent t = true) : (declStep s t).state = .important := by
  simp only [isImportantIdent, Bool.and_eq_true, decide_eq_true_eq] at hi
  simp [declStep, hs, hi.1, hi.2]

lemma wsImpWs_cons_wsc (t : PTok) (ts : List PTok) (h : wsc t = true) :
    wsImpWs (t :: ts) = wsImpWs ts := by
  simp [wsImpWs, List.dropWhile_cons, h]

lemma wsImpWs_cons_sig (t : PTok) (ts : List PTok) (h : wsc t = false) :
    wsImpWs (t :: ts) = (isImportantIdent t && ts.all wsc) := by
  simp [wsImpWs, List.dropWhile_cons, h]

lemma declScanFrom_important (ts : List PTok) :
    ∀ s : ScanS, noBang ts = true → s.state = .important →
      ((declScanFrom s ts).state = .important ↔ ts.all wsc = true) := by
  induction ts with
  | nil => intro s _ hs; simp [declScanFrom, hs]
  | cons t rest ih =>
    intro s h hs
    rw [noBang_cons, Bool.and_eq_true] at h
    rw [declScanFrom_cons]
    by_cases hw : wsc t = true
    · have hst := (declStep_wsc s t hw).1
      rw [ih _ h.2 (hst.trans hs), List.all_cons, hw]
      simp
    · have hb : isBang t = false := by simpa using h.1
      have hst : (declStep s t).state = .value := by
        apply declStep_sig_state s t hb (by simpa using hw)
        rintro ⟨hbang, -⟩
        rw [hs] at hbang
        exact absurd hbang (by decide)
      have hv := declScanFrom_state_value rest _ h.2 hst
      rw [hv, List.all_cons]
      simp [hw]
  
lemma declScanFrom_bang (ts : List PTok) :
    ∀ s : ScanS, noBang ts = true → s.state = .bang →
      ((declScanFrom s ts).state = .important ↔ wsImpWs ts = true) := by
  induction ts with
  | nil => intro s _ hs; simp [declScanFrom, hs, wsImpWs]
  | cons t rest ih =>
    intro s h hs
    rw [noBang_cons, Bool.and_eq_true] at h
    rw [declScanFrom_cons]
    by_cases hw : wsc t = true
    · have hst := (declStep_wsc s t hw).1
      rw [ih _ h.2 (hst.trans hs), wsImpWs_cons_wsc t rest hw]
    · by_cases hi : isImportantIdent t = true
      · have hst := declStep_bang_imp s t hs hi
        rw [declScanFrom_important rest _ h.2 hst,
          wsImpWs_cons_sig t rest (by simpa using hw), hi]
        simp
      · have hb : isBang t = false := by simpa using h.1
        have hst : (declStep s t).state = .value := by
          apply declStep_sig_state s t hb (by simpa using hw)
          rintro ⟨-, hid, hlow⟩
          exact hi (by simp [isImportantIdent, hid, hlow])
        have hv := declScanFrom_state_value rest _ h.2 hst
        rw [hv, wsImpWs_cons_sig t rest (by simpa using hw)]
        simp [hi]

lemma declStep_value_sig (s : ScanS) (t : PTok) (hs : s.state = .value)
    (hb : isBang t = false) (hw : wsc t = false) :
    declStep s t =
      { state := .value, bangPos := s.bangPos, value := s.value ++ [t],
        nonWs := true,
        simpleBlock := s.simpleBlock || (s.nonWs && isCurly t) } := by
  simp only [isBang] at hb
  simp only [wsc, Bool.or_eq_false_iff, decide_eq_false_iff_not] at hw
  simp only [declStep, hb, hs, isCurly]
  repeat' split
  all_goals simp_all

lemma wsc_not_curly (t : PTok) (h : wsc t = true) : isCurly t = false := by
  revert h
  cases t <;> intro h <;> first
    | rfl
    | exact Bool.noConfusion h

lemma containsBlock_cons (t : PTok) (ts : List PTok) :
    containsBlock (t :: ts) = (isCurly t || containsBlock ts) := by
  simp [containsBlock, List.any_cons, isCurly]

lemma sigThenBlock_cons (t : PTok) (ts : List PTok) :
    sigThenBlock (t :: ts) =
      ((sigTok t && containsBlock ts) || sigThenBlock ts) := rfl

lemma declScanFrom_flags (ts : List PTok) :
    ∀ s : ScanS, noBang ts = true → s.state = .value →
      (declScanFrom s ts).simpleBlock =
        (s.simpleBlock || (s.nonWs && containsBlock ts) || sigThenBlock ts) ∧
      (declScanFrom s ts).nonWs = (s.nonWs || ts.any sigTok) := by
  induction ts with
  | nil => intro s _ _; simp [declScanFrom, containsBlock, sigThenBlock]
  | cons t rest ih =>
    intro s h hs
    rw [noBang_cons, Bool.and_eq_true] at h
    rw [declScanFrom_cons]
    by_cases hw : wsc t = true
    · obtain ⟨h1, h2, h3⟩ := declStep_wsc s t hw
      obtain ⟨ihs, ihn⟩ := ih _ h.2 (h1.trans hs)
      have hc : isCurly t = false := wsc_not_curly t hw
      have hsg : sigTok t = false := by simp [sigTok, hw]
      rw [ihs, ihn, h2, h3, containsBlock_cons, sigThenBlock_cons,
        List.any_cons, hc, hsg]
      simp
    · have hb : isBang t = false := by simpa using h.1
      rw [declStep_value_sig s t hs hb (by simpa using hw)]
      obtain ⟨ihs, ihn⟩ :=
        ih ⟨.value, s.bangPos, s.value ++ [t], true,
          s.simpleBlock || (s.nonWs && isCurly t)⟩ h.2 rfl
      rw [ihs, ihn]
      have hsg : sigTok t = true := by simp [sigTok, hw]
      rw [containsBlock_cons, sigThenBlock_cons, List.any_cons, hsg]
      constructor
      · cases s.simpleBlock <;> cases s.nonWs <;> cases isCurly t <;>
          cases containsBlock rest <;> cases sigThenBlock rest <;> rfl
      · simp
  
lemma sigThenBlock_any_sig (ts : List PTok) (h : sigThenBlock ts = true) :
    ts.any sigTok = true := by
  induction ts with
  | nil => exact Bool.noConfusion h
  | cons t rest ih =>
    rw [sigThenBlock_cons, Bool.or_eq_true, Bool.and_eq_true] at h
    rw [List.any_cons, Bool.or_eq_true]
    rcases h with ⟨h1, -⟩ | h2
    · exact Or.inl h1
    · exact Or.inr (ih h2)

lemma spec_trailing_noBang (ts : List PTok) (h : noBang ts = true) :
    spec_trailing_important ts = false := by
  induction ts with
  | nil => rfl
  | cons t rest ih =>
    rw [noBang_cons, Bool.and_eq_true] at h
    have ht : isBang t = false := by simpa using h.1
    simp [spec_trailing_important, ht, ih h.2]

lemma spec_trailing_decomp (pre post : List PTok) (b : PTok)
    (hb : isBang b = true) (hpre : noBang pre = true)
    (hpost : noBang post = true) :
    spec_trailing_important (pre ++ b :: post) = wsImpWs post := by
  induction pre with
  | nil => simp [spec_trailing_important, hb, spec_trailing_noBang post hpost]
  | cons t pre' ih =>
    rw [noBang_cons, Bool.and_eq_true] at hpre
    have ht : isBang t = false := by simpa using hpre.1
    simp [spec_trailing_important, ht, ih hpre.2]

lemma declStep_bang (s : ScanS) (t : PTok) (hs : s.state = .value)
    (hb : isBang t = true) :
    declStep s t =
      ⟨.bang, s.value.length, s.value ++ [t], s.nonWs, s.simpleBlock⟩ := by
  simp only [isBang] at hb
  simp [declStep, hs, hb]

lemma declScanFrom_append (s : ScanS) (l1 l2 : List PTok) :
    declScanFrom s (l1 ++ l2) = declScanFrom (declScanFrom s l1) l2 := by
  simp [declScanFrom, List.foldl_append]

lemma declScan_eq_from (ts : List PTok) :
    declScan ts = declScanFrom ⟨.value, 0, [], false, false⟩ ts := rfl

lemma declScan_decomp (pre post : List PTok) (bl bc : Int)
    (hpre : noBang pre = true) (hpost : noBang post = true) :
    ((declScan (pre ++ PTok.literal bl bc ['!'] :: post)).state = .important ↔
      wsImpWs post = true) ∧
    (declScan (pre ++ PTok.literal bl bc ['!'] :: post)).bangPos =
      pre.length ∧
    (declScan (pre ++ PTok.literal bl bc ['!'] :: post)).value =
      pre ++ PTok.literal bl bc ['!'] :: post := by
  set b : PTok := PTok.literal bl bc ['!'] with hbdef
  have hb : isBang b = true := by simp [isBang, eqStr, hbdef]
  rw [declScan_eq_from]
  rw [show pre ++ b :: post = (pre ++ [b]) ++ post by simp]
  rw [declScanFrom_append, declScanFrom_append]
  set s1 := declScanFrom ⟨.value, 0, [], false, false⟩ pre with hs1
  have hs1state : s1.state = .value :=
    declScanFrom_state_value pre _ hpre rfl
  have hs1val : s1.value = pre := by
    rw [hs1, declScanFrom_value_eq]
    simp
  have hstep : declScanFrom s1 [b] = declStep s1 b := rfl
  rw [hstep, declStep_bang s1 b hs1state hb]
  refine ⟨?_, ?_, ?_⟩
  · exact declScanFrom_bang post _ hpost rfl
  · rw [declScanFrom_bangPos_eq post _ hpost]
    simp [hs1val]
  · rw [declScanFrom_value_eq]
    simp [hs1val]

lemma parse_declaration_reduce (nl nc cl cc : Int) (nv nlow : List Char)
    (ts : List PTok) :
    parse_declaration (.ident nl nc nv nlow) (.literal cl cc [':'] :: ts) =
      if (declScan ts).simpleBlock ∧ (declScan ts).nonWs then
        .parseError cl cc "invalid" "Declaration contains \x7b\x7d block"
      else
        .declaration nl nc nv nlow
          (if (declScan ts).state = .important then
            (declScan ts).value.take (declScan ts).bangPos
          else (declScan ts).value)
          ((declScan ts).state = .important) := by
  simp [parse_declaration, ptype, next_significant, eqStr, psourceLine,
    psourceColumn, pidentValue, plowerValue]

/-- C2 amended.  For a declaration value containing exactly one `!`
literal (written `pre ++ ! :: post`), whenever `_parse_declaration`
returns a declaration, its `important` flag is true exactly when the
value ends with that `!`, optional whitespace/comments, an ident
`important`, and only whitespace/comments to the end; and when
important is true the stored value is the sequence truncated at the
`!`, otherwise it is the whole sequence.  (With several `!` tokens the
claimed iff fails, see the counterexample.) -/
theorem declaration_important_unique_bang
    (nl nc cl cc bl bc : Int) (nv nlow : List Char) (pre post : List PTok)
    (hpre : noBang pre = true) (hpost : noBang post = true)
    (dl dc : Int) (dn dlo : List Char) (v : List PTok) (imp : Bool)
    (hres : parse_declaration (.ident nl nc nv nlow)
        (.literal cl cc [':'] :: (pre ++ PTok.literal bl bc ['!'] :: post)) =
      .declaration dl dc dn dlo v imp) :
    imp = spec_trailing_important (pre ++ PTok.literal bl bc ['!'] :: post) ∧
    (imp = true → v = pre) ∧
    (imp = false → v = pre ++ PTok.literal bl bc ['!'] :: post) := by
  obtain ⟨hstate, hpos, hval⟩ := declScan_decomp pre post bl bc hpre hpost
  have hspec := spec_trailing_decomp pre post (PTok.literal bl bc ['!'])
    (by simp [isBang, eqStr]) hpre hpost
  rw [parse_declaration_reduce] at hres
  split at hres
  · exact absurd hres (by simp)
  · rw [DeclResult.declaration.injEq] at hres
    obtain ⟨-, -, -, -, hv, himp⟩ := hres
    rw [hspec]
    cases hw : wsImpWs post with
    | true =>
      have hst : (declScan (pre ++ PTok.literal bl bc ['!'] :: post)).state =
          .important := hstate.mpr hw
      refine ⟨?_, fun _ => ?_, fun hf => ?_⟩
      · rw [← himp, hst]
        simp
      · rw [← hv, if_pos hst, hval, hpos]
        exact List.take_left pre (PTok.literal bl bc ['!'] :: post)
      · rw [← himp, hst] at hf
        simp at hf
    | false =>
      have hst : ¬ (declScan (pre ++ PTok.literal bl bc ['!'] :: post)).state =
          .important := fun hc => by
        rw [hstate] at hc
        exact Bool.noConfusion (hw.symm.trans hc)
      refine ⟨?_, fun htr => ?_, fun _ => ?_⟩
      · rw [← himp]
        simp [hst]
      · rw [← himp] at htr
        simp [hst] at htr
      · rw [← hv, if_neg hst, hval]

/-- C5 amended.  For a declaration value with no `!` literal, the
declaration parser returns the `invalid` "contains \x7b\x7d block"
error exactly when some non-whitespace/non-comment token strictly
precedes a `{}` block; a `{}` block followed by extra significant
tokens (with nothing significant before it) is accepted as a
declaration, contrary to the claim's "in either order". -/
theorem declaration_block_error_characterization
    (nl nc cl cc : Int) (nv nlow : List Char) (ts : List PTok)
    (h : noBang ts = true) :
    (parse_declaration (.ident nl nc nv nlow) (.literal cl cc [':'] :: ts) =
        .parseError cl cc "invalid" "Declaration contains \x7b\x7d block") ↔
      sigThenBlock ts = true := by
  obtain ⟨hsb, hnw⟩ := declScanFrom_flags ts ⟨.value, 0, [], false, false⟩ h rfl
  rw [← declScan_eq_from] at hsb hnw
  simp only [Bool.false_or, Bool.false_and] at hsb hnw
  rw [parse_declaration_reduce]
  constructor
  · intro heq
    split at heq
    case isTrue hc =>
      have h1 := hc.1
      rw [hsb] at h1
      exact h1
    case isFalse => exact absurd heq (by simp)
  · intro hstb
    have h1 : (declScan ts).simpleBlock = true := by rw [hsb]; exact hstb
    have h2 : (declScan ts).nonWs = true := by
      rw [hnw]
      exact sigThenBlock_any_sig ts hstb
    rw [if_pos ⟨h1, h2⟩]

theorem declaration_important_unique_bang_witness :
    (true = spec_trailing_important
        [PTok.number 1 3 1 (some 1) ['1'], PTok.whitespace 1 4,
         PTok.literal 1 5 ['!'], PTok.whitespace 1 6,
         PTok.ident 1 7 "important".data "important".data]) ∧
    (true = true →
      [PTok.number 1 3 1 (some 1) ['1'], PTok.whitespace 1 4] =
        [PTok.number 1 3 1 (some 1) ['1'], PTok.whitespace 1 4]) ∧
    (true = false →
      [PTok.number 1 3 1 (some 1) ['1'], PTok.whitespace 1 4] =
        [PTok.number 1 3 1 (some 1) ['1'], PTok.whitespace 1 4,
         PTok.literal 1 5 ['!'], PTok.whitespace 1 6,
         PTok.ident 1 7 "important".data "important".data]) :=
  declaration_important_unique_bang 1 1 1 2 1 5 ['a'] ['a']
    [PTok.number 1 3 1 (some 1) ['1'], PTok.whitespace 1 4]
    [PTok.whitespace 1 6, PTok.ident 1 7 "important".data "important".data]
    rfl rfl 1 1 ['a'] ['a']
    [PTok.number 1 3 1 (some 1) ['1'], PTok.whitespace 1 4] true rfl

/-- C2 counterexample.  The value `! ! important` ends with a `!`
literal followed directly by the ident `important` (so the claimed
trailing pattern holds), yet the parser returns `important = false`:
the second `!` is consumed in the bang state and resets the scan. -/
theorem double_bang_important_not_important :
    parse_declaration (.ident 1 1 ['a'] ['a'])
        [.literal 1 2 [':'], .literal 1 3 ['!'], .literal 1 4 ['!'],
         .ident 1 5 "important".data "important".data] =
      .declaration 1 1 ['a'] ['a']
        [.literal 1 3 ['!'], .literal 1 4 ['!'],
         .ident 1 5 "important".data "important".data] false ∧
    spec_trailing_important
        [.literal 1 3 ['!'], .literal 1 4 ['!'],
         .ident 1 5 "important".data "important".data] = true :=
  ⟨rfl, rfl⟩

theorem declaration_block_error_characterization_witness :
    (parse_declaration (.ident 1 1 ['a'] ['a'])
        [.literal 1 2 [':'], .ident 1 4 ['b'] ['b'], .curlyBlock 1 5 []] =
      .parseError 1 2 "invalid" "Declaration contains \x7b\x7d block") ↔
      sigThenBlock [.ident 1 4 ['b'] ['b'], .curlyBlock 1 5 []] = true :=
  declaration_block_error_characterization 1 1 1 2 ['a'] ['a']
    [.ident 1 4 ['b'] ['b'], .curlyBlock 1 5 []] rfl

/-- C5 counterexample.  A value consisting of a `{}` block followed by
another significant token is parsed as a declaration, not rejected as
`invalid`, although the claim demands the error "in either order". -/
theorem block_before_token_accepted :
    parse_declaration (.ident 1 1 ['a'] ['a'])
        [.literal 1 2 [':'], .curlyBlock 1 3 [], .ident 1 4 ['b'] ['b']] =
      .declaration 1 1 ['a'] ['a']
        [.curlyBlock 1 3 [], .ident 1 4 ['b'] ['b']] false :=
  rfl

end Tinycss2
